import Mathlib

/-!
Verification development for the ssh-pool remote command/transfer engine
(`src/lib/connection.js`, `src/lib/connection-pool.js`, `src/lib/util.js`).

The JavaScript sources are embedded shallowly: command-line construction is
modelled as pure functions on strings and token lists; external process
execution is abstracted as an environment mapping a command line to its
outcome; the promise combinators (`Promise.reduce` sequencing, `Promise.all`
fan-out) are modelled as explicit folds, with the fan-out's settle order made
an explicit parameter.
-/

namespace SshPool

/-- A parsed remote endpoint record `{user, host, port}`. -/
structure Remote where
  user : String
  host : String
  port : Option Nat
deriving Repr, DecidableEq

/-- Modelled from the spec: the endpoint formatter `remote.format` of
`lib/remote.js`, which is not among the provided sources (only its callers
are). Spec section 6: `format(endpoint) -> "user@host"` string (port is not
embedded in the formatted string). -/
def remoteFormat (r : Remote) : String :=
  r.user ++ "@" ++ r.host

/-- Connection construction options that take part in command building:
`key`, `strict` and `asUser` (connection.js). `none` models an absent
(undefined) option. -/
structure ConnOptions where
  key : Option String
  strict : Option String
  asUser : Option String
deriving Repr, DecidableEq

/-- Embeds `buildSSHArgs` (connection.js lines 367-380): emit `-p <port>`,
`-i <key>` and `-o StrictHostKeyChecking=<strict>` for each option that is
set. -/
def buildSSHArgs (port : Option Nat) (key : Option String) (strict : Option String) :
    List String :=
  (match port with | some p => ["-p", toString p] | none => []) ++
    (match key with | some k => ["-i", k] | none => []) ++
    (match strict with | some s => ["-o", "StrictHostKeyChecking=" ++ s] | none => [])

/-- A `Connection` (connection.js lines 25-35): the remote endpoint and the
construction options. -/
structure Connection where
  remote : Remote
  options : ConnOptions
deriving Repr, DecidableEq

/-- The SSH argument set derived once in the `Connection` constructor
(connection.js lines 30-34) and cached for every later command. -/
def Connection.sshArgs (c : Connection) : List String :=
  buildSSHArgs c.remote.port c.options.key c.options.strict

/-- Embeds the test `/^sudo/.exec(command)` (connection.js line 56): the
command text begins with the four characters `sudo` (a plain prefix match,
not a whole-word match). -/
def startsWithSudo (command : String) : Bool :=
  ("sudo".data).isPrefixOf command.data

/-- One step of `command.replace(/"/g, '\\"')` (connection.js line 62):
a double quote becomes backslash-quote, every other character is kept. -/
def escChar (c : Char) : List Char :=
  if c = '"' then ['\\', '"'] else [c]

/-- Embeds `command.replace(/"/g, '\\"')` (connection.js line 62). -/
def escapeQuotes (s : String) : String :=
  String.mk ((s.data.map escChar).flatten)

/-- Embeds `command.replace('sudo', '')` (connection.js line 66): a JS
`replace` with a plain-string pattern deletes only the first occurrence of
`sudo`. -/
def removeFirstSudo : List Char → List Char
  | [] => []
  | c :: cs =>
    if ("sudo".data).isPrefixOf (c :: cs) then (c :: cs).drop 4
    else c :: removeFirstSudo cs

/-- The quoted payload assembled by `Connection.prototype.buildSSHCommand`
(connection.js lines 61-70): the double-quote-escaped command, wrapped as
`'sudo -u ' + asUser + command` when an `asUser` override is configured,
with the first `sudo` occurrence deleted first when the command was a sudo
command. -/
def sshPayload (c : Connection) (command : String) : String :=
  let isSudo := startsWithSudo command
  let command := escapeQuotes command
  match c.options.asUser with
  | some u =>
    "sudo -u " ++ u ++
      (if isSudo then String.mk (removeFirstSudo command.data) else command)
  | none => command

/-- The argument list assembled by `Connection.prototype.buildSSHCommand`
(connection.js lines 52-77): `ssh`, the `-tt` TTY flag when the command is a
sudo command, the cached SSH args, the formatted remote, then the
double-quoted payload. -/
def sshCommandArgs (c : Connection) (command : String) : List String :=
  ["ssh"] ++ (if startsWithSudo command then ["-tt"] else []) ++ c.sshArgs ++
    [remoteFormat c.remote] ++ ["\"" ++ sshPayload c command ++ "\""]

/-- Embeds `Connection.prototype.buildSSHCommand` (connection.js lines
52-77): the argument list joined with single spaces. -/
def buildSSHCommand (c : Connection) (command : String) : String :=
  String.intercalate " " (sshCommandArgs c command)

/-- Embeds `formatExcludes` (connection.js lines 338-342): a fold appending
one `--exclude "<pattern>"` token pair per entry. -/
def formatExcludes (excludes : List String) : List String :=
  excludes.foldl (fun prev current => prev ++ ["--exclude", "\"" ++ current ++ "\""]) []

/-- The copy direction option (`localToRemote` is the default). -/
inductive Direction
  | localToRemote
  | remoteToLocal
deriving DecidableEq, Repr

/-- The rsync command line built by `copyViaRsync` (connection.js lines
176-207): endpoint completion by direction, exclude tokens, `-az`, the extra
rsync arguments, and the `-e "ssh <sshArgs>"` transport. -/
def rsyncCommand (c : Connection) (direction : Direction) (ignores : Option (List String))
    (rsyncArgs : List String) (src dest : String) : String :=
  let completeSrc :=
    if direction = .remoteToLocal then remoteFormat c.remote ++ ":" ++ src else src
  let completeDest :=
    if direction = .localToRemote then remoteFormat c.remote ++ ":" ++ dest else dest
  let excludes := match ignores with | some l => formatExcludes l | none => []
  let rsyncOptions := excludes ++ ["-az"] ++ rsyncArgs
  String.intercalate " "
    (["rsync"] ++ rsyncOptions ++
      ["-e", "\"ssh " ++ String.intercalate " " c.sshArgs ++ "\"", completeSrc, completeDest])

/-- Node `path.posix.basename` (an external collaborator of connection.js):
the last path component, ignoring trailing slashes. -/
def basename (p : String) : String :=
  let rev := p.data.reverse.dropWhile (fun c => c = '/')
  String.mk ((rev.takeWhile (fun c => c ≠ '/')).reverse)

/-- Node `path.posix.dirname` (an external collaborator of connection.js). -/
def dirname (p : String) : String :=
  match p.data with
  | [] => "."
  | c0 :: rest =>
    let hasRoot := c0 = '/'
    let rev1 := rest.reverse.dropWhile (fun c => c = '/')
    let rev2 := rev1.dropWhile (fun c => c ≠ '/')
    match rev2 with
    | [] => if hasRoot then "/" else "."
    | _ :: revInit =>
      if hasRoot && revInit.isEmpty then "//"
      else String.mk (c0 :: revInit.reverse)

/-- Which endpoint a staged step belongs to (the `'src'` / `'dest'` string
constants of `generateScpCommands`). -/
inductive Side
  | src
  | dest
deriving DecidableEq, Repr

/-- The inner `generateCommand` helper of `generateScpCommands`
(connection.js lines 219-226): a step is left as-is when its side is the
local one under the current direction, otherwise it is wrapped through
`buildSSHCommand`. -/
def generateCommand (c : Connection) (direction : Direction) (cmd : String) (side : Side) :
    String :=
  if (direction = .remoteToLocal ∧ side = .dest) ∨
      (direction = .localToRemote ∧ side = .src) then cmd
  else buildSSHCommand c cmd

/-- The JS `\w` character class used by `util.resolveMsysGitPath`. -/
def isWordChar (ch : Char) : Bool :=
  ch.isAlphanum || ch = '_'

/-- Characters matched by an un-flagged JS `.`: everything except the four
line terminators. The regex of `util.resolveMsysGitPath` uses `(.*)`. -/
def jsDotChar (ch : Char) : Bool :=
  !(ch = '\n' || ch = '\r' || ch = Char.ofNat 0x2028 || ch = Char.ofNat 0x2029)

/-- Embeds `util.resolveMsysGitPath` (util.js): a path matching
`/^(\w):\\(.*)$/` is rewritten to `'/' + drive + '/' + rest` with every
backslash of `rest` replaced by a forward slash; any other path is returned
unchanged. -/
def resolveMsysGitPath (p : String) : String :=
  match p.data with
  | ch :: c2 :: c3 :: rest =>
    if c2 = ':' ∧ c3 = '\\' ∧ isWordChar ch = true ∧ rest.all jsDotChar = true then
      String.mk ('/' :: ch :: '/' :: rest.map (fun c => if c = '\\' then '/' else c))
    else p
  | _ => p

/-- The inner `generatePath` helper of `generateScpCommands` (connection.js
lines 228-236): resolve the path, then prefix it with the formatted remote
when its side is the remote one under the current direction. -/
def generatePath (c : Connection) (direction : Direction) (p : String) (side : Side) :
    String :=
  let resolvedPath := resolveMsysGitPath p
  if (direction = .remoteToLocal ∧ side = .dest) ∨
      (direction = .localToRemote ∧ side = .src) then resolvedPath
  else remoteFormat c.remote ++ ":" ++ resolvedPath

/-- Embeds `buildSCPCommand` (connection.js lines 391-399): `scp`, `-P
<port>` and `-i <key>` when configured, then source and destination. -/
def buildSCPCommand (c : Connection) (fromArg toArg : String) : String :=
  String.intercalate " "
    (["scp"] ++ (match c.remote.port with | some p => ["-P", toString p] | none => []) ++
      (match c.options.key with | some k => ["-i", k] | none => []) ++ [fromArg, toArg])

/-- Embeds `generateScpCommands` (connection.js lines 218-269): the six
staged-archive commands, in source order. `sprintf('%s.tmp.tar.gz', b)` is
the concatenation `b ++ ".tmp.tar.gz"`. -/
def generateScpCommands (c : Connection) (direction : Direction)
    (ignores : Option (List String)) (src dest : String) : List String :=
  let excludes := match ignores with | some l => formatExcludes l | none => []
  let packageFile := basename src ++ ".tmp.tar.gz"
  let fromPath := generatePath c direction (dirname src ++ "/" ++ packageFile) .src
  let toPath := generatePath c direction dest .dest
  let cdSource := String.intercalate " " ["cd", dirname src]
  let cdDest := String.intercalate " " ["cd", dest]
  let tar := generateCommand c direction
    (String.intercalate " && "
      [cdSource,
        String.intercalate " " (["tar"] ++ excludes ++ ["-czf", packageFile, basename src])])
    .src
  let copy :=
    if direction = .localToRemote then
      String.intercalate " && " [cdSource, buildSCPCommand c packageFile toPath]
    else buildSCPCommand c fromPath toPath
  let untar := generateCommand c direction
    (String.intercalate " && "
      [cdDest, String.intercalate " " ["tar", "--strip-components", "1", "-xzf", packageFile]])
    .dest
  [tar,
    generateCommand c direction (String.intercalate " " ["mkdir", "-p", dest]) .dest,
    copy,
    generateCommand c direction
      (String.intercalate " && " [cdSource, String.intercalate " " ["rm", packageFile]]) .src,
    untar,
    generateCommand c direction
      (String.intercalate " && " [cdDest, String.intercalate " " ["rm", packageFile]]) .dest]

/-- The buffered outcome of one `child_process.exec` run. -/
structure ExecResult where
  stdout : String
  stderr : String
deriving Repr, DecidableEq

/-- The behaviour of `execCommand` (connection.js lines 140-165), abstracted
as an environment: for a command line, either the executor's error (rejected
promise) or the buffered output (resolved promise). -/
abbrev ExecEnv := String → Except String ExecResult

/-- The sequential `Promise.reduce` loop of `copyViaScp` (connection.js
lines 286-296): run the commands strictly in list order, stop at the first
failure, and accumulate the stdout/stderr concatenations. The first
component is the list of commands whose processes were started. -/
def runCommandSeq (env : ExecEnv) (acc : ExecResult) :
    List String → List String × Except String ExecResult
  | [] => ([], .ok acc)
  | cmd :: rest =>
    match env cmd with
    | .error e => ([cmd], .error e)
    | .ok r =>
      let next := runCommandSeq env ⟨acc.stdout ++ r.stdout, acc.stderr ++ r.stderr⟩ rest
      (cmd :: next.1, next.2)

/-- Embeds `copyViaScp` (connection.js lines 280-298): the `Promise.reduce`
over `generateScpCommands`, starting from empty accumulated output. -/
def copyViaScp (env : ExecEnv) (c : Connection) (direction : Direction)
    (ignores : Option (List String)) (src dest : String) :
    List String × Except String ExecResult :=
  runCommandSeq env ⟨"", ""⟩ (generateScpCommands c direction ignores src dest)

/-- The caller-visible JS options object passed to
`Connection.prototype.copy`; `none` models an absent (undefined) property. -/
structure JsCopyOptions where
  maxBuffer : Option Nat
  direction : Option Direction
  rsync : Option (List String)
  ignores : Option (List String)
  useShim : Option Bool
deriving Repr, DecidableEq

/-- Embeds `options = _.defaults(options || {}, {maxBuffer: 1000 * 1024,
direction: 'localToRemote', rsync: []})` (connection.js lines 318-322).
lodash's `_.defaults` assigns each missing (undefined) property into its
first (destination) argument in place and returns that same object, so this
value is both the options used by the rest of `copy` and the state of the
caller's object after the call. -/
def copyApplyDefaults (o : JsCopyOptions) : JsCopyOptions :=
  { o with
    maxBuffer := some (o.maxBuffer.getD (1000 * 1024))
    direction := some (o.direction.getD .localToRemote)
    rsync := some (o.rsync.getD []) }

/-- The caller-visible JS options object passed to
`Connection.prototype.run`. -/
structure JsRunOptions where
  maxBuffer : Option Nat
  cwd : Option String
deriving Repr, DecidableEq

/-- Embeds `options = _.defaults(options || {}, {maxBuffer: 1000 * 1024})`
(connection.js lines 95-97), with the same in-place `_.defaults`
semantics. -/
def runApplyDefaults (o : JsRunOptions) : JsRunOptions :=
  { o with maxBuffer := some (o.maxBuffer.getD (1000 * 1024)) }

/-- The two transfer strategies the selector can pick. -/
inductive CopyStrategy
  | rsync
  | scp
deriving DecidableEq, Repr

/-- The strategy selection of `Connection.prototype.copy` (connection.js
lines 324-325): `var handler = rsyncAvailable ? copyViaRsync : copyViaScp;`.
The defaulted options object is in scope at that point but takes no part in
the selection. -/
def copyDispatch (rsyncAvailable : Bool) (options : JsCopyOptions) : CopyStrategy :=
  if rsyncAvailable then .rsync else .scp

/-- The rejection carried by member `i` of a list of settled promise
outcomes, if any. -/
def errAt (outcomes : List (Except String ExecResult)) (i : Nat) : Option String :=
  match outcomes.get? i with
  | some (.error e) => some e
  | _ => none

/-- Collect the fulfillment values of a list of settled promise outcomes, in
member (index) order. -/
def collectOk : List (Except String ExecResult) → Except String (List ExecResult)
  | [] => .ok []
  | .error e :: _ => .error e
  | .ok r :: rest =>
    match collectOk rest with
    | .error e => .error e
    | .ok rs => .ok (r :: rs)

/-- Bluebird's `Promise.all` (the external promise combinator used by
connection-pool.js): `schedule` is the order in which the member promises
settle. The aggregate rejects with the first rejection observed in settle
order; otherwise it fulfills with the member values in member (index)
order. -/
def promiseAll (schedule : List Nat) (outcomes : List (Except String ExecResult)) :
    Except String (List ExecResult) :=
  match schedule.findSome? (errAt outcomes) with
  | some e => .error e
  | none => collectOk outcomes

/-- Embeds `ConnectionPool.prototype.run` (connection-pool.js lines 32-42):
`Promise.all` over `connection.run(command, options)` for every member.
`exec` abstracts the outcome of `Connection.prototype.run` for a given
connection and command. -/
def poolRun (schedule : List Nat) (connections : List Connection)
    (exec : Connection → String → Except String ExecResult) (command : String) :
    Except String (List ExecResult) :=
  promiseAll schedule (connections.map (fun c => exec c command))

/-- Embeds `ConnectionPool.prototype.copy` (connection-pool.js lines 54-64):
`Promise.all` over `connection.copy(src, dest, options)` for every member. -/
def poolCopy (schedule : List Nat) (connections : List Connection)
    (execCopy : Connection → String → String → Except String ExecResult) (src dest : String) :
    Except String (List ExecResult) :=
  promiseAll schedule (connections.map (fun c => execCopy c src dest))

/-! Claim-side definitions: these follow the wording of the specification and
of the claims, to be compared with the source-side definitions above. -/

/-- Spec side: one `--exclude "<pattern>"` token pair per ignore entry, order
preserved (spec section 4.4 / claim C6). -/
def specExcludeTokens (ignores : List String) : List String :=
  (ignores.map (fun pat => ["--exclude", "\"" ++ pat ++ "\""])).flatten

/-- Spec side: which side of a staged copy is the remote endpoint under a
direction (spec section 9, `isRemoteSide(direction, side)`). -/
def specIsRemoteSide (direction : Direction) (side : Side) : Bool :=
  match side with
  | .src => direction = .remoteToLocal
  | .dest => direction = .localToRemote

/-- Spec side: a staged step is wrapped through the Command Builder exactly
when its side is remote under the current direction (claim C3). -/
def specWrapSide (c : Connection) (direction : Direction) (side : Side) (cmd : String) :
    String :=
  if specIsRemoteSide direction side then buildSSHCommand c cmd else cmd

/-- Spec side: the six staged-archive commands exactly as claim C3 lists
them. The precise shape of the third (scp transfer) step is not pinned down
by the claim beyond being a single scp invocation honoring port and key, so
it is taken from the source. -/
def specStagedCommands (c : Connection) (direction : Direction)
    (ignores : Option (List String)) (src dest : String) : List String :=
  let pkg := basename src ++ ".tmp.tar.gz"
  let excl := specExcludeTokens (ignores.getD [])
  [specWrapSide c direction .src
      ("cd " ++ dirname src ++ " && " ++
        String.intercalate " " (["tar"] ++ excl ++ ["-czf", pkg, basename src])),
    specWrapSide c direction .dest ("mkdir -p " ++ dest),
    (if direction = .localToRemote then
        "cd " ++ dirname src ++ " && " ++
          buildSCPCommand c pkg (generatePath c direction dest .dest)
      else
        buildSCPCommand c (generatePath c direction (dirname src ++ "/" ++ pkg) .src)
          (generatePath c direction dest .dest)),
    specWrapSide c direction .src ("cd " ++ dirname src ++ " && " ++ ("rm " ++ pkg)),
    specWrapSide c direction .dest
      ("cd " ++ dest ++ " && " ++ ("tar --strip-components 1 -xzf " ++ pkg)),
    specWrapSide c direction .dest ("cd " ++ dest ++ " && " ++ ("rm " ++ pkg))]

/-- Spec side: the command text begins with the whole token `sudo` (the word
followed by a separator or nothing), as claim C8 words it. -/
def startsWithSudoToken (command : String) : Bool :=
  command = "sudo" || ("sudo ".data).isPrefixOf command.data

/-- Spec side: the payload claim C2 predicts under an `asUser` override: the
`sudo -u <asUser>` wrapper, a separating space, then the command text (with
a leading `sudo` token dropped when the command was a sudo command). -/
def specAsUserPayload (u command : String) : String :=
  "sudo -u " ++ u ++ " " ++
    (if ("sudo ".data).isPrefixOf command.data then String.mk (command.data.drop 5)
     else command)

/-- Spec side: concatenation, in execution order, of one output stream of a
list of step results (claim C7). -/
def specConcat (f : ExecResult → String) (outs : List ExecResult) : String :=
  (outs.map f).foldr (fun a b => a ++ b) ""

/-- Spec side: backslash-separated segments joined into one character list
(claim C10's `X:\a\b` form). -/
def joinSegs (sep : Char) : List (List Char) → List Char
  | [] => []
  | [s] => s
  | s :: s2 :: rest => s ++ sep :: joinSegs sep (s2 :: rest)

/-- Spec side: the match condition of `util.resolveMsysGitPath`'s regex, as
a standalone predicate (claim C10's "of that form"). -/
def msysForm (p : String) : Bool :=
  match p.data with
  | ch :: c2 :: c3 :: rest =>
    if c2 = ':' ∧ c3 = '\\' ∧ isWordChar ch = true ∧ rest.all jsDotChar = true then true
    else false
  | _ => false

/-! Concrete sample objects used by witnesses and counterexamples. -/

/-- A connection for `user@host` with no key, port, strict or asUser. -/
def connPlain : Connection := ⟨⟨"user", "host", none⟩, ⟨none, none, none⟩⟩

/-- A connection for `user@host` with key `/k` (spec end-to-end scenario 2). -/
def connWithKey : Connection := ⟨⟨"user", "host", none⟩, ⟨some "/k", none, none⟩⟩

/-- A connection for `user@host` with the `asUser` override `bob`. -/
def connAsUser : Connection := ⟨⟨"user", "host", none⟩, ⟨none, none, some "bob"⟩⟩

/-- A copy options object with only `useShim: true` set. -/
def optsShim : JsCopyOptions := ⟨none, none, none, none, some true⟩

/-- A copy options object with no properties set (the JS literal `{}`). -/
def optsEmpty : JsCopyOptions := ⟨none, none, none, none, none⟩

/-- A copy options object with every defaulted property already present. -/
def optsFull : JsCopyOptions := ⟨some 5, some .remoteToLocal, some ["-v"], some ["a"], some false⟩

/-- A run options object with `maxBuffer` present. -/
def runOptsFull : JsRunOptions := ⟨some 7, some "/root"⟩

/-- Two pool members `a@h1`, `a@h2` (spec end-to-end scenario 4). -/
def poolH1H2 : List Connection :=
  [⟨⟨"a", "h1", none⟩, ⟨none, none, none⟩⟩, ⟨⟨"a", "h2", none⟩, ⟨none, none, none⟩⟩]

/-- A member behaviour that fulfills with the member's host as stdout. -/
def execByHost : Connection → String → Except String ExecResult :=
  fun c command => .ok ⟨c.remote.host ++ ":" ++ command, ""⟩

/-- A per-member copy behaviour that fulfills with the member's host. -/
def execCopyByHost : Connection → String → String → Except String ExecResult :=
  fun c src dest => .ok ⟨c.remote.host ++ ":" ++ src ++ ">" ++ dest, ""⟩

/-- An execution environment in which every command succeeds with output
`o` / `e`. -/
def envAllOk : ExecEnv := fun _ => .ok ⟨"o", "e"⟩

/-- The step results produced by `envAllOk` on the six staged commands. -/
def outsAllOk : List ExecResult := List.replicate 6 ⟨"o", "e"⟩

/-! Helper lemmas. -/

theorem strAppendAssoc (a b c : String) : a ++ b ++ c = a ++ (b ++ c) := by
  obtain ⟨la⟩ := a
  obtain ⟨lb⟩ := b
  obtain ⟨lc⟩ := c
  show String.mk ((la ++ lb) ++ lc) = String.mk (la ++ (lb ++ lc))
  rw [List.append_assoc]

theorem strAppendEmpty (a : String) : a ++ "" = a := by
  obtain ⟨la⟩ := a
  show String.mk (la ++ []) = String.mk la
  rw [List.append_nil]

theorem bridgeCd (d y : String) :
    String.intercalate " && " [String.intercalate " " ["cd", d], y] =
      "cd " ++ d ++ " && " ++ y := by
  show (("cd " ++ d) ++ " && ") ++ y = _
  simp [strAppendAssoc]

theorem formatExcludes_go (l : List String) (acc : List String) :
    l.foldl (fun prev current => prev ++ ["--exclude", "\"" ++ current ++ "\""]) acc =
      acc ++ specExcludeTokens l := by
  induction l generalizing acc with
  | nil => simp [specExcludeTokens]
  | cons p rest ih => simp [specExcludeTokens, ih, List.append_assoc]

theorem formatExcludes_eq (l : List String) : formatExcludes l = specExcludeTokens l := by
  simpa using formatExcludes_go l []

theorem sudoPrefixDecomp (l : List Char) (h : ("sudo".data).isPrefixOf l = true) :
    l = 's' :: 'u' :: 'd' :: 'o' :: l.drop 4 := by
  rw [show ("sudo".data : List Char) = ['s', 'u', 'd', 'o'] from rfl] at h
  match l with
  | [] => simp [List.isPrefixOf] at h
  | [a] => simp [List.isPrefixOf] at h
  | [a, b] => simp [List.isPrefixOf] at h
  | [a, b, c] => simp [List.isPrefixOf] at h
  | a :: b :: c :: d :: t =>
    simp only [List.isPrefixOf, Bool.and_eq_true, beq_iff_eq] at h
    obtain ⟨rfl, rfl, rfl, rfl, -⟩ := h
    rfl

theorem removeFirstSudo_cons4 (t : List Char) :
    removeFirstSudo ('s' :: 'u' :: 'd' :: 'o' :: t) = t := by
  rw [removeFirstSudo]
  rw [show (("sudo".data).isPrefixOf ('s' :: 'u' :: 'd' :: 'o' :: t) : Bool) = true from by
    rw [show ("sudo".data : List Char) = ['s', 'u', 'd', 'o'] from rfl]
    simp [List.isPrefixOf]]
  simp

theorem escapeQuotes_cons4 (t : List Char) :
    ((('s' :: 'u' :: 'd' :: 'o' :: t).map escChar)).flatten =
      's' :: 'u' :: 'd' :: 'o' :: ((t.map escChar).flatten) := by
  simp [escChar]

/-! Claim theorems. -/

/-- C1 (amended): the strategy selection of `Connection.prototype.copy`
depends only on rsync availability; the options object (in particular
`useShim`) is never consulted: the Rsync Strategy is chosen exactly when
rsync is resolvable and the Staged Archive Strategy exactly when it is
not. -/
theorem copyDispatch_ignores_options :
    ∀ (rsyncAvailable : Bool) (o o2 : JsCopyOptions),
      copyDispatch rsyncAvailable o = copyDispatch rsyncAvailable o2 ∧
        (copyDispatch rsyncAvailable o = CopyStrategy.rsync ↔ rsyncAvailable = true) ∧
        (copyDispatch rsyncAvailable o = CopyStrategy.scp ↔ rsyncAvailable = false) := by
  intro avail o o2
  cases avail <;> simp [copyDispatch]

/-- C1 counterexample: with `useShim: true` and rsync available, `copy`
still dispatches to the Rsync Strategy, not to the Staged Archive Strategy
as the claim states. -/
theorem copyDispatch_useShim_counterexample :
    optsShim.useShim = some true ∧ copyDispatch true optsShim ≠ CopyStrategy.scp := by
  decide

/-- C9 (amended): the `_.defaults` call of `Connection.prototype.copy` /
`run` writes the missing defaulted properties (`maxBuffer`, `direction`,
`rsync`; only `maxBuffer` for `run`) into the caller's options object: the
object is left unchanged exactly when all defaulted properties were already
present; properties that are present are never overwritten, and
non-defaulted properties (`ignores`, `useShim`) are never touched. -/
theorem defaults_mutate_caller_options :
    ∀ (o : JsCopyOptions) (r : JsRunOptions),
      ((copyApplyDefaults o = o) ↔
          (o.maxBuffer.isSome ∧ o.direction.isSome ∧ o.rsync.isSome)) ∧
        (copyApplyDefaults o).ignores = o.ignores ∧
        (copyApplyDefaults o).useShim = o.useShim ∧
        (∀ v, o.maxBuffer = some v → (copyApplyDefaults o).maxBuffer = some v) ∧
        (∀ d, o.direction = some d → (copyApplyDefaults o).direction = some d) ∧
        (∀ l, o.rsync = some l → (copyApplyDefaults o).rsync = some l) ∧
        ((runApplyDefaults r = r) ↔ r.maxBuffer.isSome) ∧
        (∀ v, r.maxBuffer = some v → (runApplyDefaults r).maxBuffer = some v) := by
  intro o r
  obtain ⟨mb, dir, rs, ig, us⟩ := o
  obtain ⟨rmb, rcwd⟩ := r
  cases mb <;> cases dir <;> cases rs <;> cases rmb <;>
    simp [copyApplyDefaults, runApplyDefaults]

/-- C9 witness: a fully-populated options object is not mutated and keeps
its own values. -/
theorem defaults_mutate_caller_options_witness :
    copyApplyDefaults optsFull = optsFull ∧
      (copyApplyDefaults optsFull).maxBuffer = some 5 ∧
      runApplyDefaults runOptsFull = runOptsFull :=
  ⟨(defaults_mutate_caller_options optsFull runOptsFull).1.mpr (by decide),
    (defaults_mutate_caller_options optsFull runOptsFull).2.2.2.1 5 rfl,
    (defaults_mutate_caller_options optsFull runOptsFull).2.2.2.2.2.2.1.mpr (by decide)⟩

/-- C9 counterexample: `copy`'s defaulting step mutates a caller-supplied
empty options object (lodash `_.defaults` assigns into its first argument),
contradicting the claim that the caller's object is never mutated. -/
theorem copy_options_mutation_counterexample :
    copyApplyDefaults optsEmpty ≠ optsEmpty := by
  decide

/-- C6 (confirmed): both strategies translate an ignore list into exactly
one `--exclude "<pattern>"` token pair per entry, order preserved:
`formatExcludes` (used by the Rsync Strategy and by the archive-creation
step of the Staged Archive Strategy) equals the spec-side token sequence,
and the concrete `[a, b]` instance appears verbatim in both generated
command lines. -/
theorem excludes_token_translation :
    ∀ (ignores : List String),
      formatExcludes ignores = specExcludeTokens ignores ∧
        rsyncCommand connPlain .localToRemote (some ["a", "b"]) [] "/src/dir" "/dest/dir" =
          "rsync --exclude \"a\" --exclude \"b\" -az -e \"ssh \" /src/dir user@host:/dest/dir" ∧
        (generateScpCommands connPlain .localToRemote (some ["a", "b"])
              "/src/dir" "/dest/dir").get? 0 =
          some "cd /src && tar --exclude \"a\" --exclude \"b\" -czf dir.tmp.tar.gz dir" := by
  intro ignores
  exact ⟨formatExcludes_eq ignores, rfl, rfl⟩

/-- C5 (confirmed): the Rsync Strategy prefixes exactly the
direction-appropriate endpoint with `user@host:` and composes the command
line as `rsync <excludes> -az <extra> -e "ssh <sshArgs>" <src> <dest>`;
in particular `copy('/a','/b')` on `user@host` with key `/k` executes
`rsync -az -e "ssh -i /k" /a user@host:/b`. -/
theorem rsync_compose_claim :
    ∀ (c : Connection) (ignores : Option (List String)) (extra : List String) (src dest : String),
      rsyncCommand c .localToRemote ignores extra src dest =
          String.intercalate " "
            (["rsync"] ++ specExcludeTokens (ignores.getD []) ++ ["-az"] ++ extra ++
              ["-e", "\"ssh " ++ String.intercalate " " c.sshArgs ++ "\"", src,
                remoteFormat c.remote ++ ":" ++ dest]) ∧
        rsyncCommand c .remoteToLocal ignores extra src dest =
          String.intercalate " "
            (["rsync"] ++ specExcludeTokens (ignores.getD []) ++ ["-az"] ++ extra ++
              ["-e", "\"ssh " ++ String.intercalate " " c.sshArgs ++ "\"",
                remoteFormat c.remote ++ ":" ++ src, dest]) ∧
        rsyncCommand connWithKey .localToRemote none [] "/a" "/b" =
          "rsync -az -e \"ssh -i /k\" /a user@host:/b" := by
  intro c ignores extra src dest
  refine ⟨?_, ?_, rfl⟩ <;> cases ignores <;>
    simp [rsyncCommand, formatExcludes_eq, specExcludeTokens]

/-- C3 (confirmed): for every direction, source and destination, the Staged
Archive Strategy generates exactly the six commands the claim lists, in that
order — archive on the src side, `mkdir -p` on the dest side, one scp
transfer honoring port and key, archive removal on the src side, extraction
on the dest side, archive removal on the dest side — with every command
whose side is remote under the current direction wrapped through
`buildSSHCommand` and the local-side commands left unwrapped. -/
theorem staged_commands_spec :
    ∀ (c : Connection) (direction : Direction) (ignores : Option (List String))
      (src dest : String),
      generateScpCommands c direction ignores src dest =
        specStagedCommands c direction ignores src dest := by
  intro c direction ignores src dest
  cases direction <;> cases ignores <;>
    simp [generateScpCommands, specStagedCommands, generateCommand, specWrapSide,
      specIsRemoteSide, formatExcludes_eq, specExcludeTokens, bridgeCd] <;>
    exact ⟨rfl, rfl, rfl, rfl⟩

theorem removeFirst_escape_drop (d : List Char) (h : ("sudo".data).isPrefixOf d = true) :
    removeFirstSudo ((d.map escChar).flatten) = ((d.drop 4).map escChar).flatten := by
  have hd := sudoPrefixDecomp d h
  rw [hd, escapeQuotes_cons4, removeFirstSudo_cons4]
  rfl

theorem neStringTT_remoteFormat (r : Remote) : "-tt" ≠ remoteFormat r := by
  intro heq
  have hdata : ('-' :: 't' :: 't' :: ([] : List Char)) =
      (r.user.data ++ ['@']) ++ r.host.data := congrArg String.data heq
  have hat : '@' ∈ (r.user.data ++ ['@']) ++ r.host.data :=
    List.mem_append_left _ (List.mem_append_right _ (by simp))
  rw [← hdata] at hat
  simp at hat

theorem neStringTT_quoted (s : String) : "-tt" ≠ "\"" ++ s ++ "\"" := by
  intro heq
  have hdata : ('-' :: 't' :: 't' :: ([] : List Char)) =
      '"' :: (s.data ++ ['"']) := congrArg String.data heq
  injection hdata with h1 _
  exact absurd h1 (by decide)

/-- C2 (amended): under an `asUser` override, the quoted payload is
`sudo -u <asUser>` concatenated directly with the escaped command text: for
a command starting with `sudo` the first four characters are dropped first
(so the space that followed `sudo` separates the wrapper from the rest),
while for any other command there is no separating space between the wrapper
and the command text. -/
theorem sshPayload_asUser (c : Connection) (u : String) (command : String)
    (h : c.options.asUser = some u) :
    (startsWithSudo command = true →
        sshPayload c command =
          "sudo -u " ++ u ++ escapeQuotes (String.mk (command.data.drop 4))) ∧
      (startsWithSudo command = false →
        sshPayload c command = "sudo -u " ++ u ++ escapeQuotes command) := by
  constructor
  · intro hs
    have hcore := removeFirst_escape_drop command.data hs
    simp only [sshPayload, h, hs, if_true]
    congr 1
    rw [show (escapeQuotes command).data = (command.data.map escChar).flatten from rfl, hcore]
    rfl
  · intro hs
    simp [sshPayload, h, hs]

/-- C2 witness: for `sudo ls` as `bob`, the payload is the amended form
(`sudo -u bob ls`). -/
theorem sshPayload_asUser_witness :
    sshPayload connAsUser "sudo ls" =
      "sudo -u " ++ "bob" ++ escapeQuotes (String.mk (("sudo ls").data.drop 4)) :=
  (sshPayload_asUser connAsUser "bob" "sudo ls" rfl).1 (by decide)

/-- C2 counterexample: with `asUser = bob`, the payload for the non-sudo
command `whoami` is `sudo -u bobwhoami`, not the claimed form with the
command text separated from the wrapper (`sudo -u bob whoami`). -/
theorem asUser_payload_counterexample :
    connAsUser.options.asUser = some "bob" ∧
      sshPayload connAsUser "whoami" ≠ specAsUserPayload "bob" "whoami" := by
  decide

/-- C8 (amended): the command builder emits the TTY flag `-tt` (right after
`ssh`, before the cached SSH arguments) exactly when the command text starts
with the four-character prefix `sudo` — not the whole token `sudo` as the
claim states; for commands without that prefix `-tt` never appears (provided
the configured SSH arguments do not themselves contain a literal `-tt`). -/
theorem tty_flag_for_sudo_only (c : Connection) (command : String)
    (h : "-tt" ∉ c.sshArgs) :
    (startsWithSudo command = true →
        sshCommandArgs c command =
          ["ssh", "-tt"] ++ c.sshArgs ++
            [remoteFormat c.remote, "\"" ++ sshPayload c command ++ "\""]) ∧
      (startsWithSudo command = false → "-tt" ∉ sshCommandArgs c command) := by
  constructor
  · intro hs
    simp [sshCommandArgs, hs]
  · intro hs hmem
    simp [sshCommandArgs, hs] at hmem
    rcases hmem with h2 | h3 | h4
    · exact h h2
    · exact absurd h3 (neStringTT_remoteFormat c.remote)
    · exact absurd h4 (neStringTT_quoted (sshPayload c command))

/-- C8 witness: on `user@host` with no extra SSH arguments, `sudo ls` gets
`-tt` right after `ssh` and `ls` does not get it at all. -/
theorem tty_flag_for_sudo_only_witness :
    sshCommandArgs connPlain "sudo ls" =
        ["ssh", "-tt"] ++ connPlain.sshArgs ++
          [remoteFormat connPlain.remote, "\"" ++ sshPayload connPlain "sudo ls" ++ "\""] ∧
      "-tt" ∉ sshCommandArgs connPlain "ls" :=
  ⟨(tty_flag_for_sudo_only connPlain "sudo ls" (by decide)).1 (by decide),
    (tty_flag_for_sudo_only connPlain "ls" (by decide)).2 (by decide)⟩

/-- C8 counterexample: `sudoku` does not start with the token `sudo`, yet
the built argument list contains the TTY flag `-tt`, because the source
tests the prefix `/^sudo/`, not the token. -/
theorem tty_token_counterexample :
    startsWithSudoToken "sudoku" = false ∧ "-tt" ∈ sshCommandArgs connPlain "sudoku" := by
  decide

theorem runCommandSeq_all_ok :
    ∀ (cmds : List String) (outs : List ExecResult) (env : ExecEnv) (acc : ExecResult),
      cmds.map env = outs.map Except.ok →
      runCommandSeq env acc cmds =
        (cmds, .ok ⟨acc.stdout ++ specConcat ExecResult.stdout outs,
          acc.stderr ++ specConcat ExecResult.stderr outs⟩) := by
  intro cmds
  induction cmds with
  | nil =>
    intro outs env acc hmap
    cases outs with
    | nil => simp [runCommandSeq, specConcat, strAppendEmpty]
    | cons o os => simp at hmap
  | cons cmd rest ih =>
    intro outs env acc hmap
    cases outs with
    | nil => simp at hmap
    | cons o os =>
      simp only [List.map_cons, List.cons.injEq] at hmap
      obtain ⟨h1, h2⟩ := hmap
      simp only [runCommandSeq, h1]
      rw [ih os env ⟨acc.stdout ++ o.stdout, acc.stderr ++ o.stderr⟩ h2]
      simp [specConcat, strAppendAssoc]

theorem runCommandSeq_abort :
    ∀ (done : List String) (outs : List ExecResult) (env : ExecEnv) (acc : ExecResult)
      (cmd : String) (rest : List String) (e : String),
      done.map env = outs.map Except.ok → env cmd = .error e →
      runCommandSeq env acc (done ++ cmd :: rest) = (done ++ [cmd], .error e) := by
  intro done
  induction done with
  | nil =>
    intro outs env acc cmd rest e hmap herr
    simp [runCommandSeq, herr]
  | cons c0 done2 ih =>
    intro outs env acc cmd rest e hmap herr
    cases outs with
    | nil => simp at hmap
    | cons o os =>
      simp only [List.map_cons, List.cons.injEq] at hmap
      obtain ⟨h1, h2⟩ := hmap
      show runCommandSeq env acc (c0 :: (done2 ++ cmd :: rest)) =
        (c0 :: (done2 ++ [cmd]), .error e)
      simp only [runCommandSeq, h1]
      rw [ih os env ⟨acc.stdout ++ o.stdout, acc.stderr ++ o.stderr⟩ cmd rest e h2 herr]

theorem runCommandSeq_trace_sound :
    ∀ (cmds : List String) (env : ExecEnv) (acc : ExecResult),
      (runCommandSeq env acc cmds).1 <+: cmds := by
  intro cmds
  induction cmds with
  | nil =>
    intro env acc
    simp [runCommandSeq]
  | cons cmd rest ih =>
    intro env acc
    cases henv : env cmd with
    | error e =>
      simp only [runCommandSeq, henv]
      exact ⟨rest, rfl⟩
    | ok r =>
      simp only [runCommandSeq, henv]
      obtain ⟨t, ht⟩ := ih env ⟨acc.stdout ++ r.stdout, acc.stderr ++ r.stderr⟩
      exact ⟨t, by rw [List.cons_append, ht]⟩

/-- C7 (confirmed): the Staged Archive Strategy runs its commands strictly
in sequence (the executed trace is always a prefix of the command list, in
list order); when every step succeeds the result is the command list with
the in-order concatenation of every step's stdout and of every step's
stderr; and when the first failing step is reached, execution stops right
after it and the whole copy surfaces that step's error (the already-executed
steps are not rolled back — they remain in the trace). -/
theorem staged_sequence_claim (env : ExecEnv) (c : Connection) (direction : Direction)
    (ignores : Option (List String)) (src dest : String) :
    (copyViaScp env c direction ignores src dest).1 <+:
        generateScpCommands c direction ignores src dest ∧
      (∀ outs,
        (generateScpCommands c direction ignores src dest).map env = outs.map Except.ok →
        copyViaScp env c direction ignores src dest =
          (generateScpCommands c direction ignores src dest,
            .ok ⟨specConcat ExecResult.stdout outs, specConcat ExecResult.stderr outs⟩)) ∧
      (∀ (done : List String) (outs : List ExecResult) (cmd : String)
        (rest : List String) (e : String),
        generateScpCommands c direction ignores src dest = done ++ cmd :: rest →
        done.map env = outs.map Except.ok → env cmd = .error e →
        copyViaScp env c direction ignores src dest = (done ++ [cmd], .error e)) := by
  refine ⟨runCommandSeq_trace_sound _ env _, ?_, ?_⟩
  · intro outs hmap
    exact runCommandSeq_all_ok _ outs env ⟨"", ""⟩ hmap
  · intro done outs cmd rest e hsplit hmap herr
    unfold copyViaScp
    rw [hsplit]
    exact runCommandSeq_abort done outs env ⟨"", ""⟩ cmd rest e hmap herr

/-- C7 witness: with every step succeeding with stdout `o` and stderr `e`,
the staged copy runs all six commands and returns the aggregated
concatenations. -/
theorem staged_sequence_claim_witness :
    copyViaScp envAllOk connPlain .localToRemote none "/src/dir" "/dest/dir" =
      (generateScpCommands connPlain .localToRemote none "/src/dir" "/dest/dir",
        .ok ⟨specConcat ExecResult.stdout outsAllOk, specConcat ExecResult.stderr outsAllOk⟩) :=
  (staged_sequence_claim envAllOk connPlain .localToRemote none "/src/dir" "/dest/dir").2.1
    outsAllOk rfl

theorem errAt_map_ok (results : List ExecResult) (i : Nat) :
    errAt (results.map Except.ok) i = none := by
  unfold errAt
  rw [List.get?_map]
  cases results.get? i <;> rfl

theorem findSome_errAt_map_ok (results : List ExecResult) (schedule : List Nat) :
    schedule.findSome? (errAt (results.map Except.ok)) = none := by
  induction schedule with
  | nil => rfl
  | cons i sched ih => simp [List.findSome?, errAt_map_ok, ih]

theorem collectOk_map_ok (results : List ExecResult) :
    collectOk (results.map Except.ok) = .ok results := by
  induction results with
  | nil => rfl
  | cons r rest ih => simp [collectOk, ih]

theorem promiseAll_map_ok (schedule : List Nat) (results : List ExecResult) :
    promiseAll schedule (results.map Except.ok) = .ok results := by
  simp [promiseAll, findSome_errAt_map_ok, collectOk_map_ok]

theorem findSome_some_of_mem (outcomes : List (Except String ExecResult)) (i : Nat)
    (e : String) :
    ∀ (schedule : List Nat), i ∈ schedule → errAt outcomes i = some e →
      ∃ e2, schedule.findSome? (errAt outcomes) = some e2 ∧
        ∃ j, errAt outcomes j = some e2 := by
  intro schedule
  induction schedule with
  | nil =>
    intro hmem _
    simp at hmem
  | cons a sched ih =>
    intro hmem herr
    cases ha : errAt outcomes a with
    | some x => exact ⟨x, by simp [List.findSome?, ha], a, ha⟩
    | none =>
      have hin : i ∈ sched := by
        rcases List.mem_cons.mp hmem with rfl | hmem2
        · rw [ha] at herr
          exact absurd herr (by simp)
        · exact hmem2
      obtain ⟨e2, hfs, j, hj⟩ := ih hin herr
      exact ⟨e2, by simp [List.findSome?, ha, hfs], j, hj⟩

/-- C4 (confirmed): for a fixed ordered member list, `ConnectionPool.run`
and `ConnectionPool.copy` issue the same call to every member and, whatever
the order in which the member operations settle (`schedule` is universally
quantified), the successful aggregate is the list of member results aligned
with the member indices; and if some member fails, the aggregate fails with
a failing member's error and reports no member results. -/
theorem pool_fanout_claim (schedule : List Nat) (connections : List Connection) :
    (∀ (exec : Connection → String → Except String ExecResult) (command : String)
        (results : List ExecResult),
        connections.map (fun c => exec c command) = results.map Except.ok →
        poolRun schedule connections exec command = .ok results ∧
          ∀ i, (results.get? i).map Except.ok =
            (connections.get? i).map (fun c => exec c command)) ∧
      (∀ (exec : Connection → String → Except String ExecResult) (command : String)
        (i : Nat) (e : String), i ∈ schedule →
        errAt (connections.map (fun c => exec c command)) i = some e →
        ∃ e2, poolRun schedule connections exec command = .error e2 ∧
          ∃ j, errAt (connections.map (fun c => exec c command)) j = some e2) ∧
      (∀ (execCopy : Connection → String → String → Except String ExecResult)
        (src dest : String) (results : List ExecResult),
        connections.map (fun c => execCopy c src dest) = results.map Except.ok →
        poolCopy schedule connections execCopy src dest = .ok results ∧
          ∀ i, (results.get? i).map Except.ok =
            (connections.get? i).map (fun c => execCopy c src dest)) ∧
      (∀ (execCopy : Connection → String → String → Except String ExecResult)
        (src dest : String) (i : Nat) (e : String), i ∈ schedule →
        errAt (connections.map (fun c => execCopy c src dest)) i = some e →
        ∃ e2, poolCopy schedule connections execCopy src dest = .error e2 ∧
          ∃ j, errAt (connections.map (fun c => execCopy c src dest)) j = some e2) := by
  refine ⟨?_, ?_, ?_, ?_⟩
  · intro exec command results hmap
    refine ⟨by rw [poolRun, hmap]; exact promiseAll_map_ok schedule results, ?_⟩
    intro i
    have hcongr := congrArg (fun l => l.get? i) hmap
    simp only [List.get?_map] at hcongr
    exact hcongr.symm
  · intro exec command i e hmem herr
    obtain ⟨e2, hfs, j, hj⟩ :=
      findSome_some_of_mem (connections.map (fun c => exec c command)) i e schedule hmem herr
    exact ⟨e2, by rw [poolRun, promiseAll, hfs], j, hj⟩
  · intro execCopy src dest results hmap
    refine ⟨by rw [poolCopy, hmap]; exact promiseAll_map_ok schedule results, ?_⟩
    intro i
    have hcongr := congrArg (fun l => l.get? i) hmap
    simp only [List.get?_map] at hcongr
    exact hcongr.symm
  · intro execCopy src dest i e hmem herr
    obtain ⟨e2, hfs, j, hj⟩ :=
      findSome_some_of_mem (connections.map (fun c => execCopy c src dest)) i e schedule
        hmem herr
    exact ⟨e2, by rw [poolCopy, promiseAll, hfs], j, hj⟩

/-- C4 witness: the pool `['a@h1', 'a@h2']` running `hostname`, with `h2`
settling first (schedule `[1, 0]`), still returns index 0 for `h1` and
index 1 for `h2`; same for `copy`. -/
theorem pool_fanout_claim_witness :
    poolRun [1, 0] poolH1H2 execByHost "hostname" =
        .ok [⟨"h1:hostname", ""⟩, ⟨"h2:hostname", ""⟩] ∧
      poolCopy [1, 0] poolH1H2 execCopyByHost "/a" "/b" =
        .ok [⟨"h1:/a>/b", ""⟩, ⟨"h2:/a>/b", ""⟩] :=
  ⟨((pool_fanout_claim [1, 0] poolH1H2).1 execByHost "hostname"
      [⟨"h1:hostname", ""⟩, ⟨"h2:hostname", ""⟩] rfl).1,
    ((pool_fanout_claim [1, 0] poolH1H2).2.2.1 execCopyByHost "/a" "/b"
      [⟨"h1:/a>/b", ""⟩, ⟨"h2:/a>/b", ""⟩] rfl).1⟩

theorem mapRepl_id (s : List Char) (hs : '\\' ∉ s) :
    s.map (fun c => if c = '\\' then '/' else c) = s := by
  induction s with
  | nil => rfl
  | cons a t ih =>
    simp only [List.mem_cons, not_or] at hs
    rw [List.map_cons, ih hs.2, if_neg (fun hh => hs.1 hh.symm)]

theorem mapRepl_joinSegs (segs : List (List Char)) (hseg : ∀ s ∈ segs, '\\' ∉ s) :
    (joinSegs '\\' segs).map (fun c => if c = '\\' then '/' else c) = joinSegs '/' segs := by
  induction segs with
  | nil => rfl
  | cons s rest ih =>
    cases rest with
    | nil =>
      simp only [joinSegs]
      exact mapRepl_id s (hseg s (by simp))
    | cons s2 rest2 =>
      simp only [joinSegs, List.map_append, List.map_cons]
      rw [mapRepl_id s (hseg s (by simp)),
        ih (fun s3 hs3 => hseg s3 (List.mem_cons_of_mem s hs3))]
      simp

theorem joinSegs_all_jsDot (segs : List (List Char))
    (hseg : ∀ s ∈ segs, ∀ ch ∈ s, jsDotChar ch = true) :
    (joinSegs '\\' segs).all jsDotChar = true := by
  induction segs with
  | nil => rfl
  | cons s rest ih =>
    cases rest with
    | nil =>
      simp only [joinSegs, List.all_eq_true]
      exact fun ch hch => hseg s (by simp) ch hch
    | cons s2 rest2 =>
      have hrest := ih (fun s3 hs3 => hseg s3 (List.mem_cons_of_mem s hs3))
      simp only [joinSegs, List.all_append, List.all_cons, Bool.and_eq_true] at *
      refine ⟨List.all_eq_true.mpr (fun ch hch => hseg s (by simp) ch hch), by decide, hrest⟩

/-- C10 (confirmed): both staged transfer endpoints are built through
`generatePath`, which always applies `resolveMsysGitPath` first (third
conjunct); and `resolveMsysGitPath` rewrites a Windows drive path
`X:\a\b...` (word-character drive, segments free of backslashes and line
terminators) to `/X/a/b...` with every backslash replaced by a forward
slash (first conjunct), while every path not of that form passes through
unchanged (second conjunct). -/
theorem msys_path_rewrite_claim :
    (∀ (drive : Char) (segs : List (List Char)),
        isWordChar drive = true → segs ≠ [] →
        (∀ s ∈ segs, '\\' ∉ s ∧ ∀ ch ∈ s, jsDotChar ch = true) →
        resolveMsysGitPath (String.mk (drive :: ':' :: '\\' :: joinSegs '\\' segs)) =
          String.mk ('/' :: drive :: '/' :: joinSegs '/' segs)) ∧
      (∀ p, msysForm p = false → resolveMsysGitPath p = p) ∧
      (∀ (c : Connection) (direction : Direction) (p : String) (side : Side),
        generatePath c direction p side =
          (if specIsRemoteSide direction side then
            remoteFormat c.remote ++ ":" ++ resolveMsysGitPath p
          else resolveMsysGitPath p)) := by
  refine ⟨?_, ?_, ?_⟩
  · intro drive segs hw hne hseg
    have hdot : (joinSegs '\\' segs).all jsDotChar = true :=
      joinSegs_all_jsDot segs (fun s hs => (hseg s hs).2)
    simp only [resolveMsysGitPath]
    rw [if_pos ⟨True.intro, True.intro, hw, hdot⟩,
      mapRepl_joinSegs segs (fun s hs => (hseg s hs).1)]
  · intro p hform
    obtain ⟨L⟩ := p
    rcases L with _ | ⟨a, _ | ⟨b, _ | ⟨c, rest⟩⟩⟩
    · rfl
    · rfl
    · rfl
    · simp only [msysForm] at hform
      simp only [resolveMsysGitPath]
      split at hform
      · exact absurd hform (by simp)
      · next hnc => rw [if_neg hnc]
  · intro c direction p side
    cases direction <;> cases side <;> simp [generatePath, specIsRemoteSide]

/-- C10 witness: `C:\a\b` is rewritten to `/C/a/b`. -/
theorem msys_path_rewrite_claim_witness :
    resolveMsysGitPath (String.mk ('C' :: ':' :: '\\' :: joinSegs '\\' [['a'], ['b']])) =
      String.mk ('/' :: 'C' :: '/' :: joinSegs '/' [['a'], ['b']]) :=
  msys_path_rewrite_claim.1 'C' [['a'], ['b']] (by decide) (by decide) (by decide)

end SshPool
